import Mathlib

/-!
Verification of the `ecb-exchange-rates` client library.

This file embeds the data model and the operations of the library in Lean:

* `RateObservation`, the flat observation tuple produced by the SDMX-JSON
  decoder.
* The cross-rate adjuster `adjustForBaseCurrency` together with the base-rate
  grouping `baseRateByDate` (from `src/client.ts`).
* The SDMX-JSON decoder `parseJsonResponse` (the parser source file is not part
  of the provided sources; it is modelled from the specification, and checked
  against the behaviours pinned down by the parser test-suite fixtures).
* The orchestration helpers `fetchAndParse`, `filterToMostRecentRate`,
  `getSingleCurrencyRates`-style shaping, `transformToMultiCurrencyResult`
  shaping and `convert` (from `src/client.ts`).
* Query validation `validateQuery` (modelled from the specification) and
  the calendar helper `subtractCalendarDays` (from `src/utils/date.ts`).

Numbers are modelled as rationals; JavaScript `Math.round` is modelled as
`jsRound`, rounding half points up.  JavaScript `Map`s and plain-object
records are modelled as association lists in insertion order where `mapSet`
overwrites the value of an existing key in place, exactly as `Map.set` does.
-/

/-- One currency/date rate point as produced by the decoder
(`ExchangeRateObservation` in `src/types`). -/
structure RateObservation where
  date : String
  currency : String
  baseCurrency : String
  rate : ℚ
deriving DecidableEq, Repr

/-- Lookup in an association-list model of a JavaScript `Map`. -/
def mapGet? {α : Type} (m : List (String × α)) (k : String) : Option α :=
  match m with
  | [] => none
  | (k1, v) :: rest => if k1 = k then some v else mapGet? rest k

/-- `Map.set`: overwrite the value of an existing key in place, otherwise
append the new entry, preserving insertion order. -/
def mapSet {α : Type} (m : List (String × α)) (k : String) (v : α) :
    List (String × α) :=
  match m with
  | [] => [(k, v)]
  | (k1, v1) :: rest =>
      if k1 = k then (k1, v) :: rest else (k1, v1) :: mapSet rest k v

/-- Grouping of the target-base observations by date
(the first loop of `adjustForBaseCurrency` in `src/client.ts`). -/
def baseRateByDate (observations : List RateObservation)
    (baseCurrency : String) : List (String × ℚ) :=
  observations.foldl
    (fun m obs =>
      if obs.currency = baseCurrency then mapSet m obs.date obs.rate else m)
    []

/-- The body of the cross-rate loop of `adjustForBaseCurrency`: the
observation pushed for `obs`, or `none` when the loop `continue`s
(base-currency observation, no base rate for the date, or a zero base
rate). -/
def crossObs (m : List (String × ℚ)) (baseCurrency : String)
    (obs : RateObservation) : Option RateObservation :=
  if obs.currency = baseCurrency then none
  else
    match mapGet? m obs.date with
    | none => none
    | some baseRate =>
        if baseRate = 0 then none
        else some ⟨obs.date, obs.currency, baseCurrency, obs.rate / baseRate⟩

/-- The body of the EUR-synthesis loop of `adjustForBaseCurrency`: the
observation pushed for a `(date, baseRate)` entry, or `none` when the loop
`continue`s (zero base rate). -/
def eurObs (baseCurrency : String) (entry : String × ℚ) :
    Option RateObservation :=
  if entry.2 = 0 then none
  else some ⟨entry.1, "EUR", baseCurrency, 1 / entry.2⟩

/-- One iteration of a JavaScript loop that either `continue`s (`f a = none`)
or pushes one element onto the result array (`f a = some b`). -/
def pushStep {α β : Type} (f : α → Option β) (acc : List β) (a : α) :
    List β :=
  match f a with
  | none => acc
  | some b => acc ++ [b]

/-- `adjustForBaseCurrency` from `src/client.ts`: converts EUR-based
observations to cross rates against a non-EUR base, optionally synthesizing
EUR as a target when it was requested. -/
def adjustForBaseCurrency (observations : List RateObservation)
    (requestedCurrencies : List String) (baseCurrency : String) :
    List RateObservation :=
  let m := baseRateByDate observations baseCurrency
  let result := observations.foldl (pushStep (crossObs m baseCurrency)) []
  let wantsEur := requestedCurrencies.contains "EUR"
  if wantsEur then
    result ++ m.foldl (pushStep (eurObs baseCurrency)) []
  else result

theorem foldl_push_eq_filterMap {α β : Type} (f : α → Option β) :
    ∀ (l : List α) (init : List β),
      l.foldl (pushStep f) init = init ++ l.filterMap f
  | [], init => by simp
  | a :: l, init => by
      cases hfa : f a with
      | none =>
          simp [List.foldl, pushStep, hfa, foldl_push_eq_filterMap f l init]
      | some b =>
          simp [List.foldl, pushStep, hfa,
            foldl_push_eq_filterMap f l (init ++ [b])]

theorem adjustForBaseCurrency_eq (observations : List RateObservation)
    (requestedCurrencies : List String) (baseCurrency : String) :
    adjustForBaseCurrency observations requestedCurrencies baseCurrency =
      observations.filterMap
        (crossObs (baseRateByDate observations baseCurrency) baseCurrency)
      ++ (if requestedCurrencies.contains "EUR" then
            (baseRateByDate observations baseCurrency).filterMap
              (eurObs baseCurrency)
          else []) := by
  simp only [adjustForBaseCurrency, foldl_push_eq_filterMap]
  by_cases h : "EUR" ∈ requestedCurrencies <;> simp [h]

theorem crossObs_currency_ne {m : List (String × ℚ)} {B : String}
    {obs o : RateObservation} (h : crossObs m B obs = some o) :
    o.currency = obs.currency ∧ obs.currency ≠ B := by
  unfold crossObs at h
  by_cases hc : obs.currency = B
  · simp [hc] at h
  · simp only [hc, if_false] at h
    cases hm : mapGet? m obs.date with
    | none => rw [hm] at h; cases h
    | some r =>
        rw [hm] at h
        by_cases hr : r = 0
        · simp [hr] at h
        · simp only [hr, if_false, Option.some.injEq] at h
          exact ⟨by rw [← h], hc⟩

theorem eurObs_currency {B : String} {entry : String × ℚ}
    {o : RateObservation} (h : eurObs B entry = some o) :
    o.currency = "EUR" := by
  unfold eurObs at h
  by_cases hr : entry.2 = 0
  · simp [hr] at h
  · simp only [hr, if_false, Option.some.injEq] at h
    rw [← h]

/-- Claim C1: for a target base `B` distinct from EUR, the cross-rate
adjustment emits, for each input observation with currency other than `B`
whose date has a recorded non-zero base rate `r`, exactly the observation
`(date, currency, B, rate / r)` (expressed by the `filterMap`
characterisation together with the explicit value of the loop body); when
EUR was requested it additionally emits `(date, EUR, B, 1 / r)` for every
date with a non-zero base rate; it never emits an observation whose
currency equals `B`; and on the concrete input EUR-USD 1.03 and
EUR-GBP 0.84 on one date, adjusting to base USD with EUR requested yields
GBP at 0.84/1.03 and EUR at 1/1.03 on that date. -/
theorem claim_C1_cross_rate_adjustment (observations : List RateObservation)
    (requestedCurrencies : List String) (B : String) (hB : B ≠ "EUR") :
    (adjustForBaseCurrency observations requestedCurrencies B =
      observations.filterMap
        (crossObs (baseRateByDate observations B) B)
      ++ (if requestedCurrencies.contains "EUR" then
            (baseRateByDate observations B).filterMap (eurObs B)
          else []))
    ∧ (∀ obs ∈ observations, obs.currency ≠ B →
        ∀ r, mapGet? (baseRateByDate observations B) obs.date = some r →
          r ≠ 0 →
          crossObs (baseRateByDate observations B) B obs =
            some ⟨obs.date, obs.currency, B, obs.rate / r⟩)
    ∧ (∀ o ∈ adjustForBaseCurrency observations requestedCurrencies B,
        o.currency ≠ B)
    ∧ (adjustForBaseCurrency
        [⟨"2025-01-15", "USD", "EUR", 103/100⟩,
         ⟨"2025-01-15", "GBP", "EUR", 84/100⟩] ["GBP", "EUR"] "USD" =
        [⟨"2025-01-15", "GBP", "USD", 84/103⟩,
         ⟨"2025-01-15", "EUR", "USD", 100/103⟩]) := by
  refine ⟨adjustForBaseCurrency_eq observations requestedCurrencies B,
    ?_, ?_, ?_⟩
  · intro obs _ hc r hr hr0
    unfold crossObs
    simp [hc, hr, hr0]
  · intro o ho
    rw [adjustForBaseCurrency_eq] at ho
    rcases List.mem_append.mp ho with h | h
    · rcases List.mem_filterMap.mp h with ⟨obs, _, hobs⟩
      rcases crossObs_currency_ne hobs with ⟨he, hne⟩
      rw [he]; exact hne
    · by_cases hw : requestedCurrencies.contains "EUR"
      · rw [if_pos hw] at h
        rcases List.mem_filterMap.mp h with ⟨entry, _, hentry⟩
        rw [eurObs_currency hentry]
        exact fun hbe => hB hbe.symm
      · rw [if_neg hw] at h
        cases h
  · simp [adjustForBaseCurrency, baseRateByDate, crossObs, eurObs, pushStep,
      mapSet, mapGet?, List.foldl, RateObservation.mk.injEq]
    norm_num

/-- Witness for Claim C1 at a concrete base currency. -/
theorem claim_C1_witness :
    ("USD" : String) ≠ "EUR" ∧
    (adjustForBaseCurrency
        [⟨"2025-01-15", "USD", "EUR", 103/100⟩,
         ⟨"2025-01-15", "GBP", "EUR", 84/100⟩] ["GBP", "EUR"] "USD" =
        [⟨"2025-01-15", "GBP", "USD", 84/103⟩,
         ⟨"2025-01-15", "EUR", "USD", 100/103⟩]) :=
  ⟨by decide,
    (claim_C1_cross_rate_adjustment
      [⟨"2025-01-15", "USD", "EUR", 103/100⟩,
       ⟨"2025-01-15", "GBP", "EUR", 84/100⟩]
      ["GBP", "EUR"] "USD" (by decide)).2.2.2⟩

/-- A coded value of an SDMX dimension; upstream data may omit the `id`. -/
structure CodedValue where
  id : Option String
  name : Option String
deriving DecidableEq, Repr

/-- An SDMX dimension declaration: an `id` and an ordered list of coded
values; the `values` container itself may be absent. -/
structure Dimension where
  id : String
  values : Option (List CodedValue)
deriving DecidableEq, Repr

/-- The two ordered dimension lists of `structure.dimensions`. -/
structure DimensionSet where
  series : List Dimension
  observation : List Dimension
deriving DecidableEq, Repr

/-- The `structure` section of an SDMX-JSON document; the `dimensions`
container may be absent. -/
structure SdmxStructure where
  dimensions : Option DimensionSet
deriving DecidableEq, Repr

/-- One series record: a mapping from a parsed integer time-index to the
observation tuple, whose first element is the candidate rate (`none`
models a JSON `null` entry). -/
structure SeriesData where
  observations : List (Nat × List (Option ℚ))
deriving DecidableEq, Repr

/-- One dataSet: a mapping from a parsed composite key (one integer index
per series dimension) to a series record; the `series` property may be
absent. -/
structure DataSet where
  series : Option (List (List Nat × SeriesData))
deriving DecidableEq, Repr

/-- An SDMX-JSON document as consumed by the decoder; `dataSets` may be
absent. -/
structure SdmxDocument where
  dataSets : Option (List DataSet)
  structure_ : SdmxStructure
deriving DecidableEq, Repr

/-- Decode-level structural errors. -/
inductive ParseError where
  | missingDimensions
  | missingDimension (dimId : String)
  | missingDimensionValues (dimId : String)
  | invalidJson (msg : String)
deriving DecidableEq, Repr

/-- The human-readable message carried by a `ParseError`. -/
def ParseError.message : ParseError → String
  | .missingDimensions =>
      "Invalid SDMX-JSON response: missing structure.dimensions"
  | .missingDimension dimId =>
      "Invalid SDMX-JSON response: missing required dimension: " ++ dimId
  | .missingDimensionValues dimId =>
      "Invalid SDMX-JSON response: missing dimension values for " ++ dimId
  | .invalidJson msg =>
      "Invalid JSON in SDMX response: " ++ msg

/-- Find a dimension by id together with its position in the ordered
dimension list. -/
def findDimensionWithIndexFrom (dims : List Dimension) (dimId : String)
    (i : Nat) : Option (Nat × Dimension) :=
  match dims with
  | [] => none
  | d :: rest =>
      if d.id = dimId then some (i, d)
      else findDimensionWithIndexFrom rest dimId (i + 1)

/-- Find a dimension by id together with its position in the ordered
dimension list, starting at position 0. -/
def findDimensionWithIndex (dims : List Dimension) (dimId : String) :
    Option (Nat × Dimension) :=
  findDimensionWithIndexFrom dims dimId 0

/-- Modelled from the spec: decoding of one entry of a series'
`observations` mapping (the parser source `src/parsers/sdmx-json-parser.ts`
is not among the provided files).  The time-index is looked up by position
in the TIME_PERIOD values; an out-of-range index, an id-less time value, or
a `null`/absent first tuple element skips the observation. -/
def decodeObservationEntry (currency denom : String)
    (timeValues : List CodedValue) (entry : Nat × List (Option ℚ)) :
    Option RateObservation :=
  (timeValues[entry.1]?).bind fun tv =>
    tv.id.bind fun date =>
      (entry.2.head?.bind id).map fun rate => ⟨date, currency, denom, rate⟩

/-- Modelled from the spec: resolution of the currency and denominator ids
of one series from its composite key.  The key is indexed at the CURRENCY
and CURRENCY_DENOM positions; any failure (key with too few indices, coded
index out of range for the dimension values, looked-up coded value without
an `id`) yields `none`. -/
def seriesIds (curPos denomPos : Nat)
    (curValues denomValues : List CodedValue) (key : List Nat) :
    Option (String × String) :=
  (key[curPos]?).bind fun ci =>
    (key[denomPos]?).bind fun di =>
      ((curValues[ci]?).bind CodedValue.id).bind fun currency =>
        ((denomValues[di]?).bind CodedValue.id).map fun denom =>
          (currency, denom)

/-- Modelled from the spec: decoding of one entry of a dataSet's `series`
mapping; when the currency/denominator resolution fails the series is
skipped entirely. -/
def decodeSeriesEntry (curPos denomPos : Nat)
    (curValues denomValues timeValues : List CodedValue)
    (entry : List Nat × SeriesData) : List RateObservation :=
  match seriesIds curPos denomPos curValues denomValues entry.1 with
  | none => []
  | some ids =>
      entry.2.observations.filterMap
        (decodeObservationEntry ids.1 ids.2 timeValues)

/-- Modelled from the spec: decoding of one dataSet; a dataSet without a
`series` property is skipped. -/
def decodeDataSet (curPos denomPos : Nat)
    (curValues denomValues timeValues : List CodedValue) (ds : DataSet) :
    List RateObservation :=
  match ds.series with
  | none => []
  | some entries =>
      entries.flatMap (decodeSeriesEntry curPos denomPos curValues denomValues
        timeValues)

/-- The resolved positions and values lists of the CURRENCY, CURRENCY_DENOM
and TIME_PERIOD dimensions. -/
structure DimensionInfo where
  curPos : Nat
  denomPos : Nat
  curValues : List CodedValue
  denomValues : List CodedValue
  timeValues : List CodedValue
deriving DecidableEq, Repr

/-- Modelled from the spec: the structural-validation phase of
`parseJsonResponse` (specification section 4.1 steps 1 to 3).  Locates the
CURRENCY and CURRENCY_DENOM series dimensions with their positions and the
TIME_PERIOD observation dimension, failing with the documented `ParseError`
for each missing container. -/
def locateDimensions (doc : SdmxDocument) :
    Except ParseError DimensionInfo :=
  match doc.structure_.dimensions with
  | none => .error .missingDimensions
  | some dims =>
      match findDimensionWithIndex dims.series "CURRENCY" with
      | none => .error (.missingDimension "CURRENCY")
      | some cur =>
          match cur.2.values with
          | none => .error (.missingDimensionValues "CURRENCY")
          | some curValues =>
              match findDimensionWithIndex dims.series "CURRENCY_DENOM" with
              | none => .error (.missingDimension "CURRENCY_DENOM")
              | some denom =>
                  match denom.2.values with
                  | none => .error (.missingDimensionValues "CURRENCY_DENOM")
                  | some denomValues =>
                      match dims.observation.find?
                          (fun d => d.id = "TIME_PERIOD") with
                      | none => .error (.missingDimension "TIME_PERIOD")
                      | some timeDim =>
                          match timeDim.values with
                          | none =>
                              .error (.missingDimensionValues "TIME_PERIOD")
                          | some timeValues =>
                              .ok ⟨cur.1, denom.1, curValues, denomValues,
                                timeValues⟩

/-- Modelled from the spec: `parseJsonResponse` of
`src/parsers/sdmx-json-parser.ts` (that source file is not among the
provided files; the definition follows specification section 4.1 and is
checked against the parser test-suite fixtures).  Locates the required
dimensions, then decodes all dataSets, tolerating malformed series and
observations by silent omission. -/
def parseJsonResponse (doc : SdmxDocument) :
    Except ParseError (List RateObservation) :=
  match locateDimensions doc with
  | .error e => .error e
  | .ok info =>
      match doc.dataSets with
      | none => .ok []
      | some dss =>
          .ok (dss.flatMap (decodeDataSet info.curPos info.denomPos
            info.curValues info.denomValues info.timeValues))

/-- Total number of series entries across all dataSets. -/
def seriesEntryCount (dss : List DataSet) : Nat :=
  (dss.map (fun ds => (ds.series.getD []).length)).sum

theorem length_filterMap_le_filter {α β : Type} (f : α → Option β)
    (p : α → Bool) (hfp : ∀ a b, f a = some b → p a = true) :
    ∀ l : List α, (l.filterMap f).length ≤ (l.filter p).length
  | [] => Nat.le_refl 0
  | a :: l => by
      cases hfa : f a with
      | none =>
          cases hpa : p a with
          | false =>
              simpa [List.filterMap_cons, hfa, List.filter_cons, hpa] using
                length_filterMap_le_filter f p hfp l
          | true =>
              simp only [List.filterMap_cons, hfa, List.filter_cons, hpa,
                if_true, List.length_cons]
              exact Nat.le_succ_of_le (length_filterMap_le_filter f p hfp l)
      | some b =>
          have hpa := hfp a b hfa
          simp only [List.filterMap_cons, hfa, List.filter_cons, hpa,
            if_true, List.length_cons]
          exact Nat.succ_le_succ (length_filterMap_le_filter f p hfp l)

theorem nodup_lt_length_le {l : List ℕ} {M : ℕ} (hn : l.Nodup)
    (hlt : ∀ x ∈ l, x < M) : l.length ≤ M := by
  have h1 : l.toFinset.card = l.length := List.toFinset_card_of_nodup hn
  have h2 : l.toFinset ⊆ Finset.range M := by
    intro x hx
    rw [List.mem_toFinset] at hx
    exact Finset.mem_range.mpr (hlt x hx)
  have h3 := Finset.card_le_card h2
  rw [h1, Finset.card_range] at h3
  exact h3

theorem decodeObservationEntry_time_lt {c d : String}
    {tv : List CodedValue} {ob : Nat × List (Option ℚ)}
    {o : RateObservation}
    (h : decodeObservationEntry c d tv ob = some o) : ob.1 < tv.length := by
  unfold decodeObservationEntry at h
  rcases Option.bind_eq_some.mp h with ⟨v, hv, _⟩
  exact (List.getElem?_eq_some.mp hv).1

theorem filterMap_decode_length_le (c d : String) (tv : List CodedValue)
    (obs : List (Nat × List (Option ℚ)))
    (hn : (obs.map Prod.fst).Nodup) :
    (obs.filterMap (decodeObservationEntry c d tv)).length ≤ tv.length := by
  have hp : ∀ ob o, decodeObservationEntry c d tv ob = some o →
      decide (ob.1 < tv.length) = true := by
    intro ob o h
    exact decide_eq_true (decodeObservationEntry_time_lt h)
  have h1 := length_filterMap_le_filter (decodeObservationEntry c d tv)
    (fun ob => decide (ob.1 < tv.length)) hp obs
  have h2 : ((obs.filter
      (fun ob => decide (ob.1 < tv.length))).map Prod.fst).Nodup :=
    List.Nodup.sublist
      (List.Sublist.map Prod.fst (List.filter_sublist obs)) hn
  have h3 : ∀ x ∈ (obs.filter
      (fun ob => decide (ob.1 < tv.length))).map Prod.fst,
      x < tv.length := by
    intro x hx
    rcases List.mem_map.mp hx with ⟨ob, hob, hx1⟩
    have hd := (List.mem_filter.mp hob).2
    rw [← hx1]
    exact of_decide_eq_true hd
  have h4 := nodup_lt_length_le h2 h3
  rw [List.length_map] at h4
  exact Nat.le_trans h1 h4

theorem decodeSeriesEntry_length_le (curPos denomPos : Nat)
    (cv dv tv : List CodedValue) (e : List Nat × SeriesData)
    (hn : (e.2.observations.map Prod.fst).Nodup) :
    (decodeSeriesEntry curPos denomPos cv dv tv e).length ≤ tv.length := by
  unfold decodeSeriesEntry
  split
  · exact Nat.zero_le _
  · exact filterMap_decode_length_le _ _ tv e.2.observations hn

theorem flatMap_length_le {α β : Type} (f : α → List β) (M : ℕ) :
    ∀ l : List α, (∀ a ∈ l, (f a).length ≤ M) →
      (l.flatMap f).length ≤ l.length * M
  | [], _ => by simp
  | a :: l, h => by
      simp only [List.flatMap_cons, List.length_append, List.length_cons,
        Nat.succ_mul]
      have h1 := h a (List.mem_cons_self a l)
      have h2 := flatMap_length_le f M l
        (fun b hb => h b (List.mem_cons_of_mem a hb))
      calc (f a).length + (l.flatMap f).length
          ≤ M + (l.flatMap f).length := Nat.add_le_add_right h1 _
        _ ≤ M + l.length * M := Nat.add_le_add_left h2 _
        _ = l.length * M + M := Nat.add_comm _ _

theorem decodeDataSet_length_le (curPos denomPos : Nat)
    (cv dv tv : List CodedValue) (ds : DataSet)
    (hn : ∀ e ∈ ds.series.getD [], (e.2.observations.map Prod.fst).Nodup) :
    (decodeDataSet curPos denomPos cv dv tv ds).length ≤
      (ds.series.getD []).length * tv.length := by
  unfold decodeDataSet
  cases hs : ds.series with
  | none => exact Nat.zero_le _
  | some entries =>
      rw [hs] at hn
      simp only [Option.getD_some] at hn ⊢
      exact flatMap_length_le _ tv.length entries
        (fun e he => decodeSeriesEntry_length_le curPos denomPos cv dv tv e
          (hn e he))

theorem decodeAll_length_le (curPos denomPos : Nat)
    (cv dv tv : List CodedValue) :
    ∀ dss : List DataSet,
      (∀ ds ∈ dss, ∀ e ∈ ds.series.getD [],
        (e.2.observations.map Prod.fst).Nodup) →
      (dss.flatMap (decodeDataSet curPos denomPos cv dv tv)).length ≤
        seriesEntryCount dss * tv.length
  | [], _ => by simp
  | ds :: dss, h => by
      simp only [List.flatMap_cons, List.length_append, seriesEntryCount,
        List.map_cons, List.sum_cons, Nat.add_mul]
      have h1 := decodeDataSet_length_le curPos denomPos cv dv tv ds
        (h ds (List.mem_cons_self ds dss))
      have h2 := decodeAll_length_le curPos denomPos cv dv tv dss
        (fun d hd => h d (List.mem_cons_of_mem ds hd))
      exact Nat.add_le_add h1 h2

theorem decodeObservationEntry_wf {c d : String} {tv : List CodedValue}
    {ob : Nat × List (Option ℚ)} {o : RateObservation}
    (h : decodeObservationEntry c d tv ob = some o) :
    o.currency = c ∧ o.baseCurrency = d ∧ ∃ v ∈ tv, v.id = some o.date := by
  unfold decodeObservationEntry at h
  rcases Option.bind_eq_some.mp h with ⟨v, hv, h2⟩
  rcases Option.bind_eq_some.mp h2 with ⟨date, hdate, h3⟩
  rcases Option.map_eq_some'.mp h3 with ⟨rate, _, h4⟩
  rw [← h4]
  exact ⟨rfl, rfl, v, List.getElem?_mem hv, by rw [hdate]⟩

theorem seriesIds_resolved {curPos denomPos : Nat}
    {cv dv : List CodedValue} {key : List Nat} {ids : String × String}
    (h : seriesIds curPos denomPos cv dv key = some ids) :
    (∃ v ∈ cv, v.id = some ids.1) ∧ (∃ v ∈ dv, v.id = some ids.2) := by
  unfold seriesIds at h
  rcases Option.bind_eq_some.mp h with ⟨ci, _, h2⟩
  rcases Option.bind_eq_some.mp h2 with ⟨di, _, h3⟩
  rcases Option.bind_eq_some.mp h3 with ⟨currency, hcur, h4⟩
  rcases Option.map_eq_some'.mp h4 with ⟨denom, hden, h5⟩
  rcases Option.bind_eq_some.mp hcur with ⟨cval, hcval, hcid⟩
  rcases Option.bind_eq_some.mp hden with ⟨dval, hdval, hdid⟩
  rw [← h5]
  exact ⟨⟨cval, List.getElem?_mem hcval, hcid⟩,
    ⟨dval, List.getElem?_mem hdval, hdid⟩⟩

theorem decodeSeriesEntry_mem_wf {curPos denomPos : Nat}
    {cv dv tv : List CodedValue} {e : List Nat × SeriesData}
    {o : RateObservation}
    (hm : o ∈ decodeSeriesEntry curPos denomPos cv dv tv e) :
    (∃ v ∈ cv, v.id = some o.currency) ∧
    (∃ v ∈ dv, v.id = some o.baseCurrency) ∧
    (∃ v ∈ tv, v.id = some o.date) := by
  unfold decodeSeriesEntry at hm
  cases hS : seriesIds curPos denomPos cv dv e.1 with
  | none => simp only [hS] at hm; cases hm
  | some ids =>
      simp only [hS] at hm
      rcases List.mem_filterMap.mp hm with ⟨ob, _, hob⟩
      rcases decodeObservationEntry_wf hob with ⟨hc, hd, hwf⟩
      rcases seriesIds_resolved hS with ⟨⟨cval, hcv1, hcv2⟩, dval, hdv1, hdv2⟩
      refine ⟨⟨cval, hcv1, ?_⟩, ⟨dval, hdv1, ?_⟩, hwf⟩
      · rw [hcv2, hc]
      · rw [hdv2, hd]

/-- The series dimensions of the single-currency parser test fixture. -/
def fixtureSeriesDims : List Dimension :=
  [⟨"FREQ", some [⟨some "D", some "Daily"⟩]⟩,
   ⟨"CURRENCY", some [⟨some "USD", some "US dollar"⟩]⟩,
   ⟨"CURRENCY_DENOM", some [⟨some "EUR", some "Euro"⟩]⟩,
   ⟨"EXR_TYPE", some [⟨some "SP00", some "Spot"⟩]⟩,
   ⟨"EXR_SUFFIX", some [⟨some "A", some "Average"⟩]⟩]

/-- The observation dimensions of the single-currency parser test
fixture. -/
def fixtureObsDims : List Dimension :=
  [⟨"TIME_PERIOD",
    some [⟨some "2025-01-15", some "2025-01-15"⟩,
          ⟨some "2025-01-16", some "2025-01-16"⟩]⟩]

/-- The `structure` section shared by the parser test fixtures. -/
def fixtureStructure : SdmxStructure :=
  ⟨some ⟨fixtureSeriesDims, fixtureObsDims⟩⟩

/-- The single-currency parser test fixture: one USD/EUR series with two
daily observations. -/
def singleCurrencyDoc : SdmxDocument :=
  ⟨some [⟨some [([0, 0, 0, 0, 0],
      ⟨[(0, [some (103/100), some 0]),
        (1, [some (10303/10000), some 0])]⟩)]⟩],
   fixtureStructure⟩

/-- Parser test fixture: a series whose composite key has too few
indices. -/
def shortKeyDoc : SdmxDocument :=
  ⟨some [⟨some [([0, 0], ⟨[(0, [some (103/100), some 0])]⟩)]⟩],
   fixtureStructure⟩

/-- Parser test fixture: the CURRENCY coded value has no `id`. -/
def noIdCurrencyDoc : SdmxDocument :=
  ⟨some [⟨some [([0, 0, 0, 0, 0], ⟨[(0, [some (103/100), some 0])]⟩)]⟩],
   ⟨some ⟨[⟨"FREQ", some [⟨some "D", some "Daily"⟩]⟩,
           ⟨"CURRENCY", some [⟨none, some "US dollar"⟩]⟩,
           ⟨"CURRENCY_DENOM", some [⟨some "EUR", some "Euro"⟩]⟩,
           ⟨"EXR_TYPE", some [⟨some "SP00", some "Spot"⟩]⟩,
           ⟨"EXR_SUFFIX", some [⟨some "A", some "Average"⟩]⟩],
          fixtureObsDims⟩⟩⟩

/-- Parser test fixture: the CURRENCY_DENOM coded value has no `id`. -/
def noIdDenomDoc : SdmxDocument :=
  ⟨some [⟨some [([0, 0, 0, 0, 0], ⟨[(0, [some (103/100), some 0])]⟩)]⟩],
   ⟨some ⟨[⟨"FREQ", some [⟨some "D", some "Daily"⟩]⟩,
           ⟨"CURRENCY", some [⟨some "USD", some "US dollar"⟩]⟩,
           ⟨"CURRENCY_DENOM", some [⟨none, some "Euro"⟩]⟩,
           ⟨"EXR_TYPE", some [⟨some "SP00", some "Spot"⟩]⟩,
           ⟨"EXR_SUFFIX", some [⟨some "A", some "Average"⟩]⟩],
          fixtureObsDims⟩⟩⟩

/-- Parser test fixture: every observation tuple has a `null` first
element. -/
def nullRateDoc : SdmxDocument :=
  ⟨some [⟨some [([0, 0, 0, 0, 0],
      ⟨[(0, [none, some 0, some 0, none, none])]⟩)]⟩],
   fixtureStructure⟩

/-- Parser test fixture: the only observation has an out-of-range time
index. -/
def outOfRangeTimeDoc : SdmxDocument :=
  ⟨some [⟨some [([0, 0, 0, 0, 0], ⟨[(99, [some (103/100), some 0])]⟩)]⟩],
   fixtureStructure⟩

/-- Parser test fixture: a dataSet without a `series` property. -/
def noSeriesPropDoc : SdmxDocument :=
  ⟨some [⟨none⟩], fixtureStructure⟩

/-- Claim C2: for a structurally valid document (CURRENCY, CURRENCY_DENOM
and TIME_PERIOD dimensions present with values lists, and per-series
time-index keys free of duplicates), decoding succeeds with at most
N times M observations (N series entries, M time-period values); every
emitted observation carries a currency id, a denominator id and a date
label taken from id-carrying coded values of the corresponding dimension;
an absent or empty dataSets list yields the empty sequence without error;
and each malformed-series / malformed-observation shape of the parser test
suite (short key, id-less currency or denominator value, out-of-range time
index, null rate, missing series property) is skipped silently, decoding
to the empty sequence. -/
theorem claim_C2_decode_bounds_and_tolerance
    (doc : SdmxDocument) (dims : DimensionSet)
    (curPos denomPos : Nat) (curDim denomDim timeDim : Dimension)
    (curValues denomValues timeValues : List CodedValue)
    (dss : List DataSet)
    (h1 : doc.structure_.dimensions = some dims)
    (h2 : findDimensionWithIndex dims.series "CURRENCY" =
      some (curPos, curDim))
    (h3 : curDim.values = some curValues)
    (h4 : findDimensionWithIndex dims.series "CURRENCY_DENOM" =
      some (denomPos, denomDim))
    (h5 : denomDim.values = some denomValues)
    (h6 : dims.observation.find? (fun d => d.id = "TIME_PERIOD") =
      some timeDim)
    (h7 : timeDim.values = some timeValues)
    (h8 : doc.dataSets = some dss)
    (h9 : ∀ ds ∈ dss, ∀ e ∈ ds.series.getD [],
      (e.2.observations.map Prod.fst).Nodup) :
    (parseJsonResponse doc = .ok (dss.flatMap
      (decodeDataSet curPos denomPos curValues denomValues timeValues)))
    ∧ ((dss.flatMap
        (decodeDataSet curPos denomPos curValues denomValues
          timeValues)).length ≤ seriesEntryCount dss * timeValues.length)
    ∧ (∀ o ∈ dss.flatMap
        (decodeDataSet curPos denomPos curValues denomValues timeValues),
        (∃ v ∈ curValues, v.id = some o.currency) ∧
        (∃ v ∈ denomValues, v.id = some o.baseCurrency) ∧
        (∃ v ∈ timeValues, v.id = some o.date))
    ∧ (parseJsonResponse { doc with dataSets := none } = .ok [])
    ∧ (parseJsonResponse { doc with dataSets := some [] } = .ok [])
    ∧ (parseJsonResponse shortKeyDoc = .ok [])
    ∧ (parseJsonResponse noIdCurrencyDoc = .ok [])
    ∧ (parseJsonResponse noIdDenomDoc = .ok [])
    ∧ (parseJsonResponse outOfRangeTimeDoc = .ok [])
    ∧ (parseJsonResponse nullRateDoc = .ok [])
    ∧ (parseJsonResponse noSeriesPropDoc = .ok []) := by
  have hL : locateDimensions doc =
      .ok ⟨curPos, denomPos, curValues, denomValues, timeValues⟩ := by
    simp only [locateDimensions, h1, h2, h3, h4, h5, h6, h7]
  have hL2 : ∀ od, locateDimensions { doc with dataSets := od } =
      .ok ⟨curPos, denomPos, curValues, denomValues, timeValues⟩ := by
    intro od
    simp only [locateDimensions, h1, h2, h3, h4, h5, h6, h7]
  refine ⟨?_, decodeAll_length_le curPos denomPos curValues denomValues
      timeValues dss h9, ?_, ?_, ?_, by rfl, by rfl, by rfl, by rfl,
      by rfl, by rfl⟩
  · simp only [parseJsonResponse, hL, h8]
  · intro o ho
    rcases List.mem_flatMap.mp ho with ⟨ds, _, hds⟩
    unfold decodeDataSet at hds
    cases hs : ds.series with
    | none => simp only [hs] at hds; cases hds
    | some entries =>
        simp only [hs] at hds
        rcases List.mem_flatMap.mp hds with ⟨e, _, he⟩
        exact decodeSeriesEntry_mem_wf he
  · simp only [parseJsonResponse, hL2 none]
  · simp only [parseJsonResponse, hL2 (some []), List.flatMap_nil]

/-- Witness for Claim C2 at the single-currency parser test fixture. -/
theorem claim_C2_witness :
    parseJsonResponse singleCurrencyDoc =
      .ok [⟨"2025-01-15", "USD", "EUR", 103/100⟩,
           ⟨"2025-01-16", "USD", "EUR", 10303/10000⟩] := by
  have h := claim_C2_decode_bounds_and_tolerance singleCurrencyDoc
    ⟨fixtureSeriesDims, fixtureObsDims⟩ 1 2
    ⟨"CURRENCY", some [⟨some "USD", some "US dollar"⟩]⟩
    ⟨"CURRENCY_DENOM", some [⟨some "EUR", some "Euro"⟩]⟩
    ⟨"TIME_PERIOD",
      some [⟨some "2025-01-15", some "2025-01-15"⟩,
            ⟨some "2025-01-16", some "2025-01-16"⟩]⟩
    [⟨some "USD", some "US dollar"⟩] [⟨some "EUR", some "Euro"⟩]
    [⟨some "2025-01-15", some "2025-01-15"⟩,
     ⟨some "2025-01-16", some "2025-01-16"⟩]
    [⟨some [([0, 0, 0, 0, 0],
        ⟨[(0, [some (103/100), some 0]),
          (1, [some (10303/10000), some 0])]⟩)]⟩]
    (by rfl) (by rfl) (by rfl) (by rfl) (by rfl) (by rfl) (by rfl)
    (by rfl) (by decide)
  rw [h.1]
  rfl

/-- All present (non-null) first tuple elements of the observation tuples
of a document: the candidate rates the decoder can ever emit. -/
def sourceRates (doc : SdmxDocument) : List ℚ :=
  (doc.dataSets.getD []).flatMap fun ds =>
    (ds.series.getD []).flatMap fun e =>
      e.2.observations.filterMap fun ob => ob.2.head?.bind id

theorem parseJsonResponse_ok_shape {doc : SdmxDocument}
    {l : List RateObservation} (h : parseJsonResponse doc = .ok l) :
    l = [] ∨ ∃ info dss, locateDimensions doc = .ok info ∧
      doc.dataSets = some dss ∧
      l = dss.flatMap (decodeDataSet info.curPos info.denomPos
        info.curValues info.denomValues info.timeValues) := by
  unfold parseJsonResponse at h
  cases hL : locateDimensions doc with
  | error e =>
      simp only [hL] at h
      exact Except.noConfusion h
  | ok info =>
      simp only [hL] at h
      cases hD : doc.dataSets with
      | none =>
          simp only [hD, Except.ok.injEq] at h
          exact Or.inl h.symm
      | some dss =>
          simp only [hD, Except.ok.injEq] at h
          exact Or.inr ⟨info, dss, rfl, rfl, h.symm⟩

theorem decodeObservationEntry_rate {c d : String} {tv : List CodedValue}
    {ob : Nat × List (Option ℚ)} {o : RateObservation}
    (h : decodeObservationEntry c d tv ob = some o) :
    ob.2.head?.bind id = some o.rate := by
  unfold decodeObservationEntry at h
  rcases Option.bind_eq_some.mp h with ⟨v, _, h2⟩
  rcases Option.bind_eq_some.mp h2 with ⟨date, _, h3⟩
  rcases Option.map_eq_some'.mp h3 with ⟨rate, hrate, h4⟩
  rw [← h4]
  exact hrate

/-- Parser input whose only observation tuple carries the present value 0
in its first position. -/
def zeroRateDoc : SdmxDocument :=
  ⟨some [⟨some [([0, 0, 0, 0, 0], ⟨[(0, [some 0, some 0])]⟩)]⟩],
   fixtureStructure⟩

/-- Counterexample to Claim C3: the document `zeroRateDoc` carries a
present (non-null) source value 0, decodes without error, and yields an
observation whose rate is 0, not strictly positive. -/
theorem claim_C3_counterexample :
    ¬ (∀ (doc : SdmxDocument) (l : List RateObservation),
        parseJsonResponse doc = .ok l → ∀ o ∈ l, 0 < o.rate) := by
  intro h
  have h0 := h zeroRateDoc [⟨"2025-01-15", "USD", "EUR", 0⟩] (by rfl)
    ⟨"2025-01-15", "USD", "EUR", 0⟩ (List.mem_singleton.mpr rfl)
  exact absurd h0 (lt_irrefl 0)

/-- Claim C3 (amended): every rate emitted by a successful decode is a
present (non-null) first tuple element of the source document, so null or
absent source values are dropped and never coerced to 0; consequently,
whenever every present source value is strictly positive, every emitted
rate is strictly positive. -/
theorem claim_C3_rates_from_source (doc : SdmxDocument)
    (l : List RateObservation) (h : parseJsonResponse doc = .ok l) :
    (∀ o ∈ l, o.rate ∈ sourceRates doc) ∧
    ((∀ x ∈ sourceRates doc, 0 < x) → ∀ o ∈ l, 0 < o.rate) := by
  have hmem : ∀ o ∈ l, o.rate ∈ sourceRates doc := by
    rcases parseJsonResponse_ok_shape h with hl | ⟨info, dss, _, hD, hl⟩
    · subst hl
      intro o ho
      cases ho
    · subst hl
      intro o ho
      rcases List.mem_flatMap.mp ho with ⟨ds, hds, ho2⟩
      unfold decodeDataSet at ho2
      cases hs : ds.series with
      | none => simp only [hs] at ho2; cases ho2
      | some entries =>
          simp only [hs] at ho2
          rcases List.mem_flatMap.mp ho2 with ⟨e, he, ho3⟩
          unfold decodeSeriesEntry at ho3
          cases hS : seriesIds info.curPos info.denomPos info.curValues
              info.denomValues e.1 with
          | none => simp only [hS] at ho3; cases ho3
          | some ids =>
              simp only [hS] at ho3
              rcases List.mem_filterMap.mp ho3 with ⟨ob, hob, hdec⟩
              have hrate := decodeObservationEntry_rate hdec
              unfold sourceRates
              rw [hD]
              refine List.mem_flatMap.mpr ⟨ds, hds, ?_⟩
              refine List.mem_flatMap.mpr ⟨e, by rw [hs]; exact he, ?_⟩
              exact List.mem_filterMap.mpr ⟨ob, hob, hrate⟩
  exact ⟨hmem, fun hpos o ho => hpos o.rate (hmem o ho)⟩

/-- Witness for the amended Claim C3 at the single-currency fixture. -/
theorem claim_C3_witness :
    (⟨"2025-01-15", "USD", "EUR", 103/100⟩ : RateObservation).rate ∈
      sourceRates singleCurrencyDoc :=
  (claim_C3_rates_from_source singleCurrencyDoc
    [⟨"2025-01-15", "USD", "EUR", 103/100⟩,
     ⟨"2025-01-16", "USD", "EUR", 10303/10000⟩] (by rfl)).1
    ⟨"2025-01-15", "USD", "EUR", 103/100⟩ (List.mem_cons_self _ _)

/-- Parser test fixture: `structure.dimensions` is absent. -/
def noDimensionsDoc : SdmxDocument :=
  ⟨some [], ⟨none⟩⟩

/-- Parser test fixture: empty series and observation dimension lists, so
CURRENCY is missing. -/
def noCurrencyDoc : SdmxDocument :=
  ⟨some [], ⟨some ⟨[], []⟩⟩⟩

/-- Parser test fixture: CURRENCY present but CURRENCY_DENOM missing. -/
def noDenomDoc : SdmxDocument :=
  ⟨some [],
   ⟨some ⟨[⟨"FREQ", some [⟨some "D", some "Daily"⟩]⟩,
           ⟨"CURRENCY", some [⟨some "USD", some "US dollar"⟩]⟩],
          fixtureObsDims⟩⟩⟩

/-- Parser test fixture: the observation dimensions lack TIME_PERIOD. -/
def noTimePeriodDoc : SdmxDocument :=
  ⟨some [], ⟨some ⟨fixtureSeriesDims, [⟨"OTHER_DIM", some []⟩]⟩⟩⟩

/-- Parser test fixture: the CURRENCY dimension is found but its `values`
container is absent. -/
def noValuesDoc : SdmxDocument :=
  ⟨some [],
   ⟨some ⟨[⟨"FREQ", some [⟨some "D", some "Daily"⟩]⟩,
           ⟨"CURRENCY", none⟩,
           ⟨"CURRENCY_DENOM", some [⟨some "EUR", some "Euro"⟩]⟩],
          fixtureObsDims⟩⟩⟩

/-- Claim C5: decoding fails with a ParseError naming the structural
defect.  A document lacking the CURRENCY (resp. CURRENCY_DENOM) series
dimension fails with a ParseError whose message names that dimension id;
one lacking the TIME_PERIOD observation dimension fails naming
TIME_PERIOD; an absent structure.dimensions container fails with a message
mentioning structure.dimensions; and a found dimension whose values
container is absent fails with the distinct message naming
missing dimension values. -/
theorem claim_C5_parse_error_messages
    (doc1 : SdmxDocument) (h1 : doc1.structure_.dimensions = none)
    (doc2 : SdmxDocument) (dims2 : DimensionSet)
    (h2a : doc2.structure_.dimensions = some dims2)
    (h2b : findDimensionWithIndex dims2.series "CURRENCY" = none)
    (doc3 : SdmxDocument) (dims3 : DimensionSet) (cur3 : Nat × Dimension)
    (cv3 : List CodedValue)
    (h3a : doc3.structure_.dimensions = some dims3)
    (h3b : findDimensionWithIndex dims3.series "CURRENCY" = some cur3)
    (h3c : cur3.2.values = some cv3)
    (h3d : findDimensionWithIndex dims3.series "CURRENCY_DENOM" = none)
    (doc4 : SdmxDocument) (dims4 : DimensionSet) (cur4 : Nat × Dimension)
    (cv4 : List CodedValue) (denom4 : Nat × Dimension)
    (dv4 : List CodedValue)
    (h4a : doc4.structure_.dimensions = some dims4)
    (h4b : findDimensionWithIndex dims4.series "CURRENCY" = some cur4)
    (h4c : cur4.2.values = some cv4)
    (h4d : findDimensionWithIndex dims4.series "CURRENCY_DENOM" =
      some denom4)
    (h4e : denom4.2.values = some dv4)
    (h4f : dims4.observation.find? (fun d => d.id = "TIME_PERIOD") = none)
    (doc5 : SdmxDocument) (dims5 : DimensionSet) (cur5 : Nat × Dimension)
    (h5a : doc5.structure_.dimensions = some dims5)
    (h5b : findDimensionWithIndex dims5.series "CURRENCY" = some cur5)
    (h5c : cur5.2.values = none) :
    (parseJsonResponse doc1 = .error .missingDimensions ∧
      ∃ pre post, ParseError.missingDimensions.message =
        pre ++ "structure.dimensions" ++ post)
    ∧ (parseJsonResponse doc2 = .error (.missingDimension "CURRENCY") ∧
      ∃ pre post, (ParseError.missingDimension "CURRENCY").message =
        pre ++ "CURRENCY" ++ post)
    ∧ (parseJsonResponse doc3 =
        .error (.missingDimension "CURRENCY_DENOM") ∧
      ∃ pre post, (ParseError.missingDimension "CURRENCY_DENOM").message =
        pre ++ "CURRENCY_DENOM" ++ post)
    ∧ (parseJsonResponse doc4 = .error (.missingDimension "TIME_PERIOD") ∧
      ∃ pre post, (ParseError.missingDimension "TIME_PERIOD").message =
        pre ++ "TIME_PERIOD" ++ post)
    ∧ (parseJsonResponse doc5 =
        .error (.missingDimensionValues "CURRENCY") ∧
      ∃ pre post, (ParseError.missingDimensionValues "CURRENCY").message =
        pre ++ "missing dimension values" ++ post) := by
  refine ⟨⟨?_, "Invalid SDMX-JSON response: missing ", "", by rfl⟩,
    ⟨?_, "Invalid SDMX-JSON response: missing required dimension: ", "",
      by rfl⟩,
    ⟨?_, "Invalid SDMX-JSON response: missing required dimension: ", "",
      by rfl⟩,
    ⟨?_, "Invalid SDMX-JSON response: missing required dimension: ", "",
      by rfl⟩,
    ⟨?_, "Invalid SDMX-JSON response: ", " for CURRENCY", by rfl⟩⟩
  · simp only [parseJsonResponse, locateDimensions, h1]
  · simp only [parseJsonResponse, locateDimensions, h2a, h2b]
  · simp only [parseJsonResponse, locateDimensions, h3a, h3b, h3c, h3d]
  · simp only [parseJsonResponse, locateDimensions, h4a, h4b, h4c, h4d,
      h4e, h4f]
  · simp only [parseJsonResponse, locateDimensions, h5a, h5b, h5c]

/-- Witness for Claim C5 at the five concrete malformed fixtures. -/
theorem claim_C5_witness :
    parseJsonResponse noDimensionsDoc = .error .missingDimensions ∧
    parseJsonResponse noCurrencyDoc =
      .error (.missingDimension "CURRENCY") ∧
    parseJsonResponse noDenomDoc =
      .error (.missingDimension "CURRENCY_DENOM") ∧
    parseJsonResponse noTimePeriodDoc =
      .error (.missingDimension "TIME_PERIOD") ∧
    parseJsonResponse noValuesDoc =
      .error (.missingDimensionValues "CURRENCY") := by
  have h := claim_C5_parse_error_messages
    noDimensionsDoc (by rfl)
    noCurrencyDoc ⟨[], []⟩ (by rfl) (by rfl)
    noDenomDoc
    ⟨[⟨"FREQ", some [⟨some "D", some "Daily"⟩]⟩,
      ⟨"CURRENCY", some [⟨some "USD", some "US dollar"⟩]⟩],
     fixtureObsDims⟩
    (1, ⟨"CURRENCY", some [⟨some "USD", some "US dollar"⟩]⟩)
    [⟨some "USD", some "US dollar"⟩]
    (by rfl) (by rfl) (by rfl) (by rfl)
    noTimePeriodDoc ⟨fixtureSeriesDims, [⟨"OTHER_DIM", some []⟩]⟩
    (1, ⟨"CURRENCY", some [⟨some "USD", some "US dollar"⟩]⟩)
    [⟨some "USD", some "US dollar"⟩]
    (2, ⟨"CURRENCY_DENOM", some [⟨some "EUR", some "Euro"⟩]⟩)
    [⟨some "EUR", some "Euro"⟩]
    (by rfl) (by rfl) (by rfl) (by rfl) (by rfl) (by rfl)
    noValuesDoc
    ⟨[⟨"FREQ", some [⟨some "D", some "Daily"⟩]⟩,
      ⟨"CURRENCY", none⟩,
      ⟨"CURRENCY_DENOM", some [⟨some "EUR", some "Euro"⟩]⟩],
     fixtureObsDims⟩
    (1, ⟨"CURRENCY", none⟩)
    (by rfl) (by rfl) (by rfl)
  exact ⟨h.1.1, h.2.1.1, h.2.2.1.1, h.2.2.2.1.1, h.2.2.2.2.1⟩

/-- A caller query (`ExchangeRateQuery` in `src/types`). -/
structure ExchangeRateQuery where
  currencies : List String
  startDate : String
  endDate : Option String
  baseCurrency : Option String
  frequency : Option String
deriving DecidableEq, Repr

/-- The error outcomes of the orchestration layer: the `EcbNoDataError`,
decode-level `EcbParseError` and `EcbValidationError` kinds, plus the
JavaScript `TypeError` raised by destructuring an `undefined` iterator
value. -/
inductive ClientError where
  | noData (currencies : List String) (startDate : String)
      (endDate : Option String)
  | parse (e : ParseError)
  | validation (msg : String)
  | typeError
deriving DecidableEq, Repr

/-- Gregorian leap-year test, as JavaScript `Date` UTC arithmetic uses. -/
def isLeapYear (y : Nat) : Bool :=
  (y % 4 == 0 && y % 100 != 0) || y % 400 == 0

/-- Number of days of month `m` of year `y`. -/
def daysInMonth (y m : Nat) : Nat :=
  if m = 2 then (if isLeapYear y then 29 else 28)
  else if m = 4 ∨ m = 6 ∨ m = 9 ∨ m = 11 then 30
  else 31

/-- The calendar day before `(year, month, day)`. -/
def prevCalendarDay : Nat × Nat × Nat → Nat × Nat × Nat
  | (y, m, d) =>
      if 1 < d then (y, m, d - 1)
      else if 1 < m then (y, m - 1, daysInMonth y (m - 1))
      else (y - 1, 12, 31)

/-- Subtract `n` calendar days from a `(year, month, day)` triple. -/
def subtractDaysTriple (t : Nat × Nat × Nat) : Nat → Nat × Nat × Nat
  | 0 => t
  | n + 1 => subtractDaysTriple (prevCalendarDay t) n

/-- The numeric value of a decimal digit character. -/
def digitVal? (c : Char) : Option Nat :=
  if 48 ≤ c.toNat ∧ c.toNat ≤ 57 then some (c.toNat - 48) else none

/-- The decimal digit character for a value below ten. -/
def digitChar (n : Nat) : Char := Char.ofNat (48 + n)

/-- Two-digit zero padding, as `padStart(2, "0")`. -/
def pad2 (n : Nat) : String :=
  String.mk [digitChar (n / 10 % 10), digitChar (n % 10)]

/-- Format a `(year, month, day)` triple as `YYYY-MM-DD` (years of this
domain have four digits). -/
def formatDate (t : Nat × Nat × Nat) : String :=
  String.mk [digitChar (t.1 / 1000 % 10), digitChar (t.1 / 100 % 10),
    digitChar (t.1 / 10 % 10), digitChar (t.1 % 10)] ++ "-" ++
    pad2 t.2.1 ++ "-" ++ pad2 t.2.2

/-- Parse a `YYYY-MM-DD` string into a calendar-valid
`(year, month, day)` triple; JavaScript `new Date` yields an Invalid Date
(`none` here) for a malformed or calendar-invalid component. -/
def parseDateString (s : String) : Option (Nat × Nat × Nat) :=
  match s.data with
  | [y1, y2, y3, y4, s1, m1, m2, s2, d1, d2] =>
      if s1 = '-' ∧ s2 = '-' then
        match digitVal? y1, digitVal? y2, digitVal? y3, digitVal? y4,
              digitVal? m1, digitVal? m2, digitVal? d1, digitVal? d2 with
        | some a, some b, some c, some d, some e, some f, some g,
          some h =>
            let y := ((a * 10 + b) * 10 + c) * 10 + d
            let m := e * 10 + f
            let dd := g * 10 + h
            if 1 ≤ m ∧ m ≤ 12 ∧ 1 ≤ dd ∧ dd ≤ daysInMonth y m then
              some (y, m, dd)
            else none
        | _, _, _, _, _, _, _, _ => none
      else none
  | _ => none

/-- `subtractCalendarDays` from `src/utils/date.ts`: subtracts calendar
days in proleptic-Gregorian UTC arithmetic, handling month, year and leap
boundaries; an unparsable or calendar-invalid date formats as the
JavaScript Invalid Date string. -/
def subtractCalendarDays (dateStr : String) (days : Nat) : String :=
  match parseDateString dateStr with
  | some t => formatDate (subtractDaysTriple t days)
  | none => "NaN-NaN-NaN"

/-- Default lookback window of `getRate` (`DEFAULT_LOOKBACK_DAYS` in
`src/client.ts`). -/
def DEFAULT_LOOKBACK_DAYS : Nat := 10

/-- The query built by `getRate` in `src/client.ts`: the trailing lookback
window ending at the requested date. -/
def getRateQuery (currency date : String) : ExchangeRateQuery :=
  ⟨[currency], subtractCalendarDays date DEFAULT_LOOKBACK_DAYS, some date,
   none, none⟩

/-- `resolveQuery` from `src/client.ts`: fills an absent query-level base
currency with the client default. -/
def resolveQuery (query : ExchangeRateQuery) (clientBase : String) :
    ExchangeRateQuery :=
  match query.baseCurrency with
  | some _ => query
  | none => { query with baseCurrency := some clientBase }

/-- `buildEurQuery` from `src/client.ts`: the EUR-denominated fetch query
that additionally includes the target base currency. -/
def buildEurQuery (query : ExchangeRateQuery) (baseCurrency : String) :
    ExchangeRateQuery :=
  let currencies :=
    if query.currencies.contains baseCurrency then query.currencies
    else query.currencies ++ [baseCurrency]
  { query with currencies := currencies, baseCurrency := some "EUR" }

/-- The guard `raw.trim().length === 0` of `fetchAndParse`: a string trims
to the empty string exactly when every character is whitespace. -/
def isBlank (s : String) : Bool :=
  s.data.all fun c => c = ' ' ∨ c = '\t' ∨ c = '\n' ∨ c = '\r'

/-- `fetchAndParse` from `src/client.ts`.  The network fetch and the JSON
deserialization happen outside the embedding: `raw` is the body text the
fetcher returned and `parsed` the result of `parseSdmxJson raw`.  An empty
or whitespace-only body, and a decode with zero observations, fail with
`EcbNoDataError` carrying the original query's currencies and date range;
for a non-EUR effective base the decoded observations are re-based through
`adjustForBaseCurrency`. -/
def fetchAndParse (query : ExchangeRateQuery) (raw : String)
    (parsed : Except ParseError SdmxDocument) :
    Except ClientError (List RateObservation) :=
  let effectiveBase := query.baseCurrency.getD "EUR"
  let isNonEurBase := effectiveBase ≠ "EUR"
  if isBlank raw then
    .error (.noData query.currencies query.startDate query.endDate)
  else
    match parsed with
    | .error e => .error (.parse e)
    | .ok json =>
        match parseJsonResponse json with
        | .error e => .error (.parse e)
        | .ok observations =>
            if observations.length = 0 then
              .error (.noData query.currencies query.startDate
                query.endDate)
            else if isNonEurBase then
              .ok (adjustForBaseCurrency observations query.currencies
                effectiveBase)
            else .ok observations

/-- A single-currency rate result (`ExchangeRateResult` in `src/types`);
`requestedDate = none` models an absent field. -/
structure ExchangeRateResult where
  base : String
  currency : String
  rates : List (String × ℚ)
  requestedDate : Option String
deriving DecidableEq, Repr

/-- A conversion result (`ConversionResult` in `src/types`). -/
structure ConversionResult where
  amount : ℚ
  rate : ℚ
  date : String
  currency : String
  requestedDate : Option String
deriving DecidableEq, Repr

/-- JavaScript `Math.round`: round to the nearest integer, half points
toward positive infinity. -/
def jsRound (x : ℚ) : ℤ := ⌊x + 1/2⌋

/-- The `date -> rate` map built by `getSingleCurrencyRates` in
`src/client.ts`: observations inserted in sequence order with
overwrite. -/
def buildRatesMap (observations : List RateObservation) :
    List (String × ℚ) :=
  observations.foldl (fun m o => mapSet m o.date o.rate) []

/-- `getSingleCurrencyRates` from `src/client.ts` (the shaping step,
applied to the observations `fetchAndParse` returned): groups by date and
derives the reported base from the first observation, falling back to the
resolved query base then to the client default. -/
def getSingleCurrencyRates (query : ExchangeRateQuery)
    (clientBase : String) (observations : List RateObservation) :
    ExchangeRateResult :=
  { base := ((observations.head?).map RateObservation.baseCurrency).getD
      (query.baseCurrency.getD clientBase),
    currency := query.currencies.headD "",
    rates := buildRatesMap observations,
    requestedDate := none }

/-- `filterToMostRecentRate` from `src/client.ts`: keeps only the entry at
the lexicographically greatest date (keys sorted ascending, last taken)
and records the requested date when it differs. -/
def filterToMostRecentRate (result : ExchangeRateResult)
    (requestedDate : String) : ExchangeRateResult :=
  if result.rates.length = 0 then result
  else
    let sortedDates :=
      List.insertionSort (fun a b => a ≤ b) (result.rates.map Prod.fst)
    match sortedDates.getLast? with
    | none => result
    | some mostRecentDate =>
        { base := result.base, currency := result.currency,
          rates := [(mostRecentDate,
            (mapGet? result.rates mostRecentDate).getD 0)],
          requestedDate :=
            if mostRecentDate ≠ requestedDate then some requestedDate
            else none }

/-- `convert` from `src/client.ts`, applied to the outcome of the
`getRate` fetch: shapes the observations, keeps the most recent rate,
destructures the first map entry (a JavaScript `TypeError` when the map is
empty) and rounds `amount * rate` to two decimal places. -/
def convert (amount : ℚ) (currency date : String) (clientBase : String)
    (fetched : Except ClientError (List RateObservation)) :
    Except ClientError ConversionResult :=
  match fetched with
  | .error e => .error e
  | .ok observations =>
      let resolved := resolveQuery (getRateQuery currency date) clientBase
      let result := getSingleCurrencyRates resolved clientBase observations
      let filtered := filterToMostRecentRate result date
      match filtered.rates.head? with
      | none => .error .typeError
      | some entry =>
          .ok ⟨(jsRound (amount * entry.2 * 100) : ℚ) / 100, entry.2,
            entry.1, currency, filtered.requestedDate⟩

/-- Claim C6: a fetched body that is empty or whitespace-only, and a
well-formed response that decodes to zero observations, both make
`fetchAndParse` fail with the no-data error (never a parse error) carrying
the originally requested currencies, start date and end date. -/
theorem claim_C6_no_data_error
    (q1 : ExchangeRateQuery) (raw1 : String)
    (parsed1 : Except ParseError SdmxDocument)
    (h1 : isBlank raw1 = true)
    (q2 : ExchangeRateQuery) (raw2 : String) (doc2 : SdmxDocument)
    (h2 : ¬ isBlank raw2 = true)
    (h3 : parseJsonResponse doc2 = .ok []) :
    fetchAndParse q1 raw1 parsed1 =
      .error (.noData q1.currencies q1.startDate q1.endDate) ∧
    fetchAndParse q2 raw2 (.ok doc2) =
      .error (.noData q2.currencies q2.startDate q2.endDate) := by
  constructor
  · simp only [fetchAndParse]
    rw [if_pos h1]
  · simp only [fetchAndParse]
    rw [if_neg h2]
    simp only [h3]
    rfl

/-- A structurally valid response with no data: empty dataSets list, as
the upstream API returns for weekends and holidays. -/
def emptyResponseDoc : SdmxDocument :=
  ⟨some [], fixtureStructure⟩

/-- Witness for Claim C6: a whitespace-only body, and a well-formed empty
response, at concrete queries. -/
theorem claim_C6_witness :
    fetchAndParse ⟨["USD"], "2025-01-08", some "2025-01-18", none, none⟩
      "  " (.error (.invalidJson "not json")) =
      .error (.noData ["USD"] "2025-01-08" (some "2025-01-18")) ∧
    fetchAndParse
      ⟨["USD", "GBP"], "2025-01-18", some "2025-01-19", none, none⟩
      "x" (.ok emptyResponseDoc) =
      .error (.noData ["USD", "GBP"] "2025-01-18" (some "2025-01-19")) :=
  claim_C6_no_data_error
    ⟨["USD"], "2025-01-08", some "2025-01-18", none, none⟩ "  "
    (.error (.invalidJson "not json")) (by decide)
    ⟨["USD", "GBP"], "2025-01-18", some "2025-01-19", none, none⟩ "x"
    emptyResponseDoc (by decide) (by rfl)

/-- Claim C4 (evidence of the divergence): with a non-EUR base, a decode
that produced observations but whose cross-rate adjustment left no usable
observation makes `fetchAndParse` return the empty list instead of
failing, and `convert` then fails by destructuring an undefined map entry
(a JavaScript TypeError), not with the documented no-data error. -/
theorem claim_C4_convert_type_error_evidence :
    parseJsonResponse singleCurrencyDoc =
      .ok [⟨"2025-01-15", "USD", "EUR", 103/100⟩,
           ⟨"2025-01-16", "USD", "EUR", 10303/10000⟩] ∧
    fetchAndParse ⟨["GBP"], "2025-01-05", some "2025-01-15", some "USD",
        none⟩ "x" (.ok singleCurrencyDoc) = .ok [] ∧
    convert 100 "GBP" "2025-01-15" "USD"
      (fetchAndParse ⟨["GBP"], "2025-01-05", some "2025-01-15",
        some "USD", none⟩ "x" (.ok singleCurrencyDoc)) =
      .error .typeError ∧
    ∀ cs s e, (ClientError.typeError ≠ ClientError.noData cs s e) :=
  ⟨by rfl, by rfl, by rfl, fun cs s e h => ClientError.noConfusion h⟩

theorem sorted_le_getLast :
    ∀ (l : List String), l.Sorted (fun a b => a ≤ b) → (hne : l ≠ []) →
      ∀ x ∈ l, x ≤ l.getLast hne
  | [], _, hne => absurd rfl hne
  | [a], _, _ => by
      intro x hx
      rw [List.mem_singleton.mp hx]
      exact le_refl a
  | a :: b :: t, hs, _ => by
      intro x hx
      rw [List.getLast_cons (List.cons_ne_nil b t)]
      rcases List.mem_cons.mp hx with rfl | hx2
      · exact (List.sorted_cons.mp hs).1 _
          (List.getLast_mem (List.cons_ne_nil b t))
      · exact sorted_le_getLast (b :: t) (List.sorted_cons.mp hs).2
          (List.cons_ne_nil b t) x hx2

theorem insertionSort_getLast_max (l : List String) (hne : l ≠ []) :
    ∃ m, (List.insertionSort (fun a b => a ≤ b) l).getLast? = some m ∧
      m ∈ l ∧ ∀ x ∈ l, x ≤ m := by
  have hperm := List.perm_insertionSort (fun a b : String => a ≤ b) l
  have hsne : List.insertionSort (fun a b : String => a ≤ b) l ≠ [] := by
    intro h0
    rw [h0] at hperm
    exact hne (List.perm_nil.mp hperm.symm)
  refine ⟨(List.insertionSort (fun a b => a ≤ b) l).getLast hsne,
    List.getLast?_eq_getLast _ hsne, ?_, ?_⟩
  · exact hperm.mem_iff.mp (List.getLast_mem hsne)
  · intro x hx
    exact sorted_le_getLast _
      (List.sorted_insertionSort (fun a b => a ≤ b) l) hsne x
      (hperm.mem_iff.mpr hx)

theorem mapGet?_of_mem_keys {α : Type} :
    ∀ {m : List (String × α)} {k : String},
      k ∈ m.map Prod.fst → ∃ v, mapGet? m k = some v := by
  intro m
  induction m with
  | nil => intro k h; cases h
  | cons p rest ih =>
      intro k h
      by_cases hk : p.1 = k
      · exact ⟨p.2, by simp [mapGet?, hk]⟩
      · rcases List.mem_cons.mp h with h1 | h1
        · exact absurd h1.symm hk
        · rcases ih h1 with ⟨v, hv⟩
          exact ⟨v, by simp [mapGet?, hk, hv]⟩

/-- Claim C7: `getRate` queries the window from the requested date minus
10 calendar days to the requested date inclusive (checked concretely on
the documented lookback example), and `filterToMostRecentRate` reduces a
non-empty date-to-rate map to exactly one entry, the one at the
lexicographically greatest date present, carrying the originally requested
date as `requestedDate` exactly when that greatest date differs from
it. -/
theorem claim_C7_window_and_most_recent (currency date : String)
    (result : ExchangeRateResult) (hne : result.rates ≠ []) :
    (getRateQuery currency date).currencies = [currency] ∧
    (getRateQuery currency date).startDate =
      subtractCalendarDays date DEFAULT_LOOKBACK_DAYS ∧
    (getRateQuery currency date).endDate = some date ∧
    subtractCalendarDays "2025-01-18" DEFAULT_LOOKBACK_DAYS =
      "2025-01-08" ∧
    ∃ m r, m ∈ result.rates.map Prod.fst ∧
      (∀ k ∈ result.rates.map Prod.fst, k ≤ m) ∧
      mapGet? result.rates m = some r ∧
      (filterToMostRecentRate result date).rates = [(m, r)] ∧
      ((filterToMostRecentRate result date).requestedDate =
        if m = date then none else some date) := by
  refine ⟨rfl, rfl, rfl, by decide, ?_⟩
  have hkne : result.rates.map Prod.fst ≠ [] := by
    intro h0
    exact hne (List.map_eq_nil_iff.mp h0)
  rcases insertionSort_getLast_max (result.rates.map Prod.fst) hkne with
    ⟨m, hlast, hmem, hmax⟩
  rcases mapGet?_of_mem_keys hmem with ⟨r, hr⟩
  have hlen : ¬ result.rates.length = 0 := by
    intro h0
    exact hne (List.length_eq_zero.mp h0)
  refine ⟨m, r, hmem, hmax, hr, ?_, ?_⟩
  · simp only [filterToMostRecentRate]
    rw [if_neg hlen]
    simp only [hlast, hr, Option.getD_some]
  · simp only [filterToMostRecentRate]
    rw [if_neg hlen]
    simp only [hlast]
    by_cases hmd : m = date
    · simp [hmd]
    · simp [hmd]

/-- Witness for Claim C7 at a concrete two-entry rate map with the
greatest date differing from the requested date. -/
theorem claim_C7_witness :
    ∃ m r,
      m ∈ (⟨"EUR", "USD",
        [("2025-01-15", (103 : ℚ)/100), ("2025-01-17", 104/100)],
        none⟩ : ExchangeRateResult).rates.map Prod.fst ∧
      (∀ k ∈ (⟨"EUR", "USD",
        [("2025-01-15", (103 : ℚ)/100), ("2025-01-17", 104/100)],
        none⟩ : ExchangeRateResult).rates.map Prod.fst, k ≤ m) ∧
      mapGet? (⟨"EUR", "USD",
        [("2025-01-15", (103 : ℚ)/100), ("2025-01-17", 104/100)],
        none⟩ : ExchangeRateResult).rates m = some r ∧
      (filterToMostRecentRate (⟨"EUR", "USD",
        [("2025-01-15", (103 : ℚ)/100), ("2025-01-17", 104/100)],
        none⟩ : ExchangeRateResult) "2025-01-18").rates = [(m, r)] ∧
      ((filterToMostRecentRate (⟨"EUR", "USD",
        [("2025-01-15", (103 : ℚ)/100), ("2025-01-17", 104/100)],
        none⟩ : ExchangeRateResult) "2025-01-18").requestedDate =
        if m = "2025-01-18" then none else some "2025-01-18") :=
  (claim_C7_window_and_most_recent "USD" "2025-01-18"
    ⟨"EUR", "USD", [("2025-01-15", 103/100), ("2025-01-17", 104/100)],
     none⟩ (by decide)).2.2.2.2

/-- Claim C8: whenever `convert` succeeds, the returned amount is
`round(amount * rate * 100) / 100` for the returned rate; concretely,
converting 100 at rate 1.03 yields exactly 103, and converting 33.33 at
rate 1.03 yields 34.33 (half-up rounding at the cent). -/
theorem claim_C8_convert_rounding
    (amount : ℚ) (currency date clientBase : String)
    (observations : List RateObservation) (res : ConversionResult)
    (h : convert amount currency date clientBase (.ok observations) =
      .ok res) :
    res.amount = (jsRound (amount * res.rate * 100) : ℚ) / 100 ∧
    convert 100 "USD" "2025-01-15" "EUR"
      (.ok [⟨"2025-01-15", "USD", "EUR", 103/100⟩]) =
      .ok ⟨103, 103/100, "2025-01-15", "USD", none⟩ ∧
    convert (3333/100) "USD" "2025-01-15" "EUR"
      (.ok [⟨"2025-01-15", "USD", "EUR", 103/100⟩]) =
      .ok ⟨3433/100, 103/100, "2025-01-15", "USD", none⟩ := by
  refine ⟨?_, ?_, ?_⟩
  · simp only [convert] at h
    cases hh : (filterToMostRecentRate
        (getSingleCurrencyRates (resolveQuery (getRateQuery currency date)
          clientBase) clientBase observations) date).rates.head? with
    | none =>
        simp only [hh] at h
        exact Except.noConfusion h
    | some entry =>
        simp only [hh, Except.ok.injEq] at h
        rw [← h]
  · simp only [convert, getSingleCurrencyRates, resolveQuery, getRateQuery,
      buildRatesMap, filterToMostRecentRate, mapSet, mapGet?, List.foldl,
      List.insertionSort, List.orderedInsert]
    norm_num [jsRound]
  · simp only [convert, getSingleCurrencyRates, resolveQuery, getRateQuery,
      buildRatesMap, filterToMostRecentRate, mapSet, mapGet?, List.foldl,
      List.insertionSort, List.orderedInsert]
    norm_num [jsRound]

/-- Witness for Claim C8 at the concrete 100 EUR to USD conversion. -/
theorem claim_C8_witness :
    (⟨103, 103/100, "2025-01-15", "USD", none⟩ :
      ConversionResult).amount =
      (jsRound (100 * (⟨103, 103/100, "2025-01-15", "USD", none⟩ :
        ConversionResult).rate * 100) : ℚ) / 100 :=
  (claim_C8_convert_rounding 100 "USD" "2025-01-15" "EUR"
    [⟨"2025-01-15", "USD", "EUR", 103/100⟩]
    ⟨103, 103/100, "2025-01-15", "USD", none⟩
    (by
      simp only [convert, getSingleCurrencyRates, resolveQuery,
        getRateQuery, buildRatesMap, filterToMostRecentRate, mapSet,
        mapGet?, List.foldl, List.insertionSort, List.orderedInsert]
      norm_num [jsRound])).1

/-- A validation failure (`EcbValidationError`). -/
structure EcbValidationError where
  message : String
deriving DecidableEq, Repr

/-- A decimal digit character. -/
def isDigitChar (c : Char) : Bool := 48 ≤ c.toNat && c.toNat ≤ 57

/-- A currency code: exactly three uppercase ASCII letters. -/
def isCurrencyCode (s : String) : Bool :=
  s.data.length == 3 && s.data.all fun c => 65 ≤ c.toNat && c.toNat ≤ 90

/-- The `YYYY-MM-DD` format test; format only, calendar validity is not
checked, by design. -/
def isDateFormat (s : String) : Bool :=
  match s.data with
  | [y1, y2, y3, y4, s1, m1, m2, s2, d1, d2] =>
      isDigitChar y1 && isDigitChar y2 && isDigitChar y3 && isDigitChar y4
        && s1 == '-' && isDigitChar m1 && isDigitChar m2 && s2 == '-'
        && isDigitChar d1 && isDigitChar d2
  | _ => false

/-- Lexicographic comparison of character lists by code point, as
JavaScript compares strings. -/
def charListLt : List Char → List Char → Bool
  | [], [] => false
  | [], _ :: _ => true
  | _ :: _, [] => false
  | a :: as, b :: bs =>
      if a.toNat < b.toNat then true
      else if b.toNat < a.toNat then false
      else charListLt as bs

/-- JavaScript string `<`: code-point lexicographic order. -/
def jsStrLt (a b : String) : Bool := charListLt a.data b.data

/-- Modelled from the spec: the self-pricing check of `validateQuery`
(`src/utils/validation.ts` is not among the provided files) - a
single-currency query whose only currency equals the effective base
currency is rejected. -/
def validateSelfPricing (query : ExchangeRateQuery) :
    Except EcbValidationError Unit :=
  match query.currencies with
  | [c] =>
      if c = query.baseCurrency.getD "EUR" then
        .error ⟨"baseCurrency must differ from the requested currency"⟩
      else .ok ()
  | _ => .ok ()

/-- Modelled from the spec: the base-currency syntax check of
`validateQuery`, followed by the self-pricing check. -/
def validateBaseAndSelf (query : ExchangeRateQuery) :
    Except EcbValidationError Unit :=
  match query.baseCurrency with
  | some b =>
      if !(isCurrencyCode b) then
        .error ⟨"Invalid baseCurrency: " ++ b⟩
      else validateSelfPricing query
  | none => validateSelfPricing query

/-- Modelled from the spec: `validateQuery` of `src/utils/validation.ts`
(that source file is not among the provided files; the definition follows
the Validator contract of specification section 6 and the validation
test-suite): non-empty currency list of three-uppercase-letter codes,
`YYYY-MM-DD`-shaped dates (format only), `startDate` not after `endDate`,
valid optional base currency, and no single-currency self pricing. -/
def validateQuery (query : ExchangeRateQuery) :
    Except EcbValidationError Unit :=
  if query.currencies.isEmpty then
    .error ⟨"currencies must not be empty"⟩
  else
    match query.currencies.find? (fun c => !(isCurrencyCode c)) with
    | some c => .error ⟨"Invalid currency code: " ++ c⟩
    | none =>
        if !(isDateFormat query.startDate) then
          .error ⟨"Invalid startDate: " ++ query.startDate⟩
        else
          match query.endDate with
          | some e =>
              if !(isDateFormat e) then
                .error ⟨"Invalid endDate: " ++ e⟩
              else if jsStrLt e query.startDate then
                .error ⟨"startDate must not be after endDate"⟩
              else validateBaseAndSelf query
          | none => validateBaseAndSelf query

theorem except_error_isOk {ε α : Type} (e : ε) :
    (Except.error e : Except ε α).isOk = false := rfl

theorem validateSelfPricing_err {q : ExchangeRateQuery} {c : String}
    (h1 : q.currencies = [c]) (h2 : c = q.baseCurrency.getD "EUR") :
    (validateSelfPricing q).isOk = false := by
  unfold validateSelfPricing
  simp only [h1]
  rw [if_pos h2]
  rfl

theorem validateBaseAndSelf_err {q : ExchangeRateQuery} {c : String}
    (h1 : q.currencies = [c]) (h2 : c = q.baseCurrency.getD "EUR") :
    (validateBaseAndSelf q).isOk = false := by
  unfold validateBaseAndSelf
  cases hb : q.baseCurrency with
  | none =>
      simp only [hb]
      exact validateSelfPricing_err h1 h2
  | some b =>
      simp only [hb]
      by_cases hc : isCurrencyCode b
      · simp only [hc, Bool.not_true, Bool.false_eq_true, if_false]
        exact validateSelfPricing_err h1 h2
      · simp only [Bool.not_eq_true] at hc
        simp only [hc, Bool.not_false, if_true, except_error_isOk]

/-- Claim C9: query validation rejects an empty currency list, rejects
both-dates queries whose start date is greater than the end date, and
rejects a single-currency query whose only currency equals the resolved
base currency; a date that matches the `YYYY-MM-DD` shape but is
calendar-invalid (month 13) is accepted. -/
theorem claim_C9_validation
    (q1 q2 q3 : ExchangeRateQuery) (e2 c3 : String)
    (h1 : q1.currencies = [])
    (h2a : q2.endDate = some e2) (h2b : jsStrLt e2 q2.startDate = true)
    (h3a : q3.currencies = [c3])
    (h3b : c3 = q3.baseCurrency.getD "EUR") :
    (validateQuery q1).isOk = false ∧
    (validateQuery q2).isOk = false ∧
    (validateQuery q3).isOk = false ∧
    validateQuery ⟨["USD"], "2025-13-01", none, none, none⟩ = .ok () := by
  refine ⟨?_, ?_, ?_, by rfl⟩
  · unfold validateQuery
    simp only [h1, List.isEmpty_nil, if_true, except_error_isOk]
  · unfold validateQuery
    by_cases hcE : q2.currencies.isEmpty
    · simp only [hcE, if_true, except_error_isOk]
    · simp only [hcE, Bool.false_eq_true, if_false]
      cases hfind : q2.currencies.find? (fun c => !(isCurrencyCode c)) with
      | some c => simp only [hfind, except_error_isOk]
      | none =>
          simp only [hfind]
          by_cases hsf : isDateFormat q2.startDate
          · simp only [hsf, Bool.not_true, Bool.false_eq_true, if_false,
              h2a]
            by_cases hef : isDateFormat e2
            · simp only [hef, Bool.not_true, Bool.false_eq_true, if_false,
                h2b, if_true, except_error_isOk]
            · simp only [Bool.not_eq_true] at hef
              simp only [hef, Bool.not_false, if_true, except_error_isOk]
          · simp only [Bool.not_eq_true] at hsf
            simp only [hsf, Bool.not_false, if_true, except_error_isOk]
  · unfold validateQuery
    by_cases hcE : q3.currencies.isEmpty
    · simp only [hcE, if_true, except_error_isOk]
    · simp only [hcE, Bool.false_eq_true, if_false]
      cases hfind : q3.currencies.find? (fun c => !(isCurrencyCode c)) with
      | some c => simp only [hfind, except_error_isOk]
      | none =>
          simp only [hfind]
          by_cases hsf : isDateFormat q3.startDate
          · simp only [hsf, Bool.not_true, Bool.false_eq_true, if_false]
            cases hE : q3.endDate with
            | none =>
                simp only [hE]
                exact validateBaseAndSelf_err h3a h3b
            | some e =>
                simp only [hE]
                by_cases hef : isDateFormat e
                · simp only [hef, Bool.not_true, Bool.false_eq_true,
                    if_false]
                  by_cases hlt : jsStrLt e q3.startDate = true
                  · simp only [hlt, if_true, except_error_isOk]
                  · simp only [Bool.not_eq_true] at hlt
                    simp only [hlt, Bool.false_eq_true, if_false]
                    exact validateBaseAndSelf_err h3a h3b
                · simp only [Bool.not_eq_true] at hef
                  simp only [hef, Bool.not_false, if_true, except_error_isOk]
          · simp only [Bool.not_eq_true] at hsf
            simp only [hsf, Bool.not_false, if_true, except_error_isOk]

/-- Witness for Claim C9 at three concrete rejected queries. -/
theorem claim_C9_witness :
    (validateQuery ⟨[], "2025-01-15", none, none, none⟩).isOk = false ∧
    (validateQuery ⟨["USD"], "2025-01-20", some "2025-01-10", none,
      none⟩).isOk = false ∧
    (validateQuery ⟨["USD"], "2025-01-15", none, some "USD",
      none⟩).isOk = false ∧
    validateQuery ⟨["USD"], "2025-13-01", none, none, none⟩ = .ok () :=
  claim_C9_validation
    ⟨[], "2025-01-15", none, none, none⟩
    ⟨["USD"], "2025-01-20", some "2025-01-10", none, none⟩
    ⟨["USD"], "2025-01-15", none, some "USD", none⟩
    "2025-01-10" "USD" rfl rfl (by decide) rfl (by decide)

/-- The grouping loop of `transformToMultiCurrencyResult` in
`src/client.ts`: nested date-to-currency-to-rate maps, observations
inserted in sequence order with overwrite of the inner record field. -/
def buildMultiRatesMap (observations : List RateObservation) :
    List (String × List (String × ℚ)) :=
  observations.foldl
    (fun rates o =>
      mapSet rates o.date
        (mapSet ((mapGet? rates o.date).getD []) o.currency o.rate))
    []

/-- Nested lookup in the multi-currency result map. -/
def multiGet? (rates : List (String × List (String × ℚ)))
    (d c : String) : Option ℚ :=
  (mapGet? rates d).bind fun dateRates => mapGet? dateRates c

theorem mapGet?_mapSet {α : Type} (k k' : String) (v : α) :
    ∀ m : List (String × α),
      mapGet? (mapSet m k v) k' =
        if k = k' then some v else mapGet? m k'
  | [] => by
      by_cases h : k = k' <;> simp [mapSet, mapGet?, h]
  | (k1, v1) :: rest => by
      by_cases h1 : k1 = k
      · subst h1
        by_cases h2 : k1 = k'
        · simp [mapSet, mapGet?, h2]
        · simp [mapSet, mapGet?, h2]
      · by_cases h2 : k1 = k'
        · subst h2
          have hne : ¬ k = k1 := fun h => h1 h.symm
          simp [mapSet, mapGet?, h1, hne]
        · simp [mapSet, mapGet?, h1, h2, mapGet?_mapSet k k' v rest]

/-- A multi-currency rate result (`ExchangeRatesResult` in
`src/types`). -/
structure ExchangeRatesResult where
  base : String
  currencies : List String
  rates : List (String × List (String × ℚ))
deriving DecidableEq, Repr

/-- `transformToMultiCurrencyResult` from `src/client.ts`. -/
def transformToMultiCurrencyResult (observations : List RateObservation)
    (query : ExchangeRateQuery) (clientBase : String) :
    ExchangeRatesResult :=
  { base := ((observations.head?).map RateObservation.baseCurrency).getD
      (query.baseCurrency.getD clientBase),
    currencies := query.currencies,
    rates := buildMultiRatesMap observations }

theorem buildRatesMap_lookup_general (d : String) :
    ∀ (obs : List RateObservation) (m : List (String × ℚ)),
      mapGet? (obs.foldl (fun acc o => mapSet acc o.date o.rate) m) d =
        match obs.reverse.find? (fun o => o.date == d) with
        | some o => some o.rate
        | none => mapGet? m d
  | [], _ => rfl
  | o :: rest, m => by
      simp only [List.foldl_cons, List.reverse_cons, List.find?_append]
      rw [buildRatesMap_lookup_general d rest (mapSet m o.date o.rate)]
      cases hf : rest.reverse.find? (fun o => o.date == d) with
      | some o2 => simp
      | none =>
          simp only [Option.none_or]
          rw [mapGet?_mapSet]
          by_cases hd : o.date = d
          · simp [List.find?_cons, hd]
          · simp [List.find?_cons, hd]


theorem buildMultiRatesMap_lookup_general (d c : String) :
    ∀ (obs : List RateObservation)
      (m : List (String × List (String × ℚ))),
      multiGet? (obs.foldl
        (fun rates o =>
          mapSet rates o.date
            (mapSet ((mapGet? rates o.date).getD []) o.currency o.rate))
        m) d c =
        match obs.reverse.find?
            (fun o => o.date == d && o.currency == c) with
        | some o => some o.rate
        | none => multiGet? m d c
  | [], _ => rfl
  | o :: rest, m => by
      simp only [List.foldl_cons, List.reverse_cons, List.find?_append]
      rw [buildMultiRatesMap_lookup_general d c rest _]
      cases hf : rest.reverse.find?
          (fun o => o.date == d && o.currency == c) with
      | some o2 => simp
      | none =>
          simp only [Option.none_or]
          unfold multiGet?
          rw [mapGet?_mapSet]
          by_cases hd : o.date = d
          · rw [if_pos hd]
            by_cases hc : o.currency = c
            · simp only [Option.some_bind]
              rw [mapGet?_mapSet, if_pos hc]
              simp [List.find?_cons, hd, hc]
            · simp only [Option.some_bind]
              rw [mapGet?_mapSet, if_neg hc]
              simp only [List.find?_cons, hd, hc]
              rw [← hd]
              have hbc : (o.currency == c) = false :=
                beq_eq_false_iff_ne.mpr hc
              cases hm : mapGet? m o.date with
              | none => simp [hm, hbc, mapGet?]
              | some dr => simp [hm, hbc]
          · rw [if_neg hd]
            simp [List.find?_cons, hd, multiGet?]

/-- Claim C10: result shaping inserts observations in sequence order with
overwrite - the value found in the single-currency date-to-rate map at a
date, and in the multi-currency date-to-currency-to-rate map at a date and
currency, is the rate of the last observation in the sequence with that
key (none when no observation has it). -/
theorem claim_C10_shaping_last_wins (observations : List RateObservation)
    (query : ExchangeRateQuery) (clientBase : String) (d c : String) :
    mapGet? (getSingleCurrencyRates query clientBase observations).rates
        d =
      (observations.reverse.find? (fun o => o.date == d)).map
        RateObservation.rate ∧
    multiGet? (transformToMultiCurrencyResult observations query
        clientBase).rates d c =
      (observations.reverse.find?
        (fun o => o.date == d && o.currency == c)).map
        RateObservation.rate := by
  constructor
  · show mapGet? (buildRatesMap observations) d = _
    unfold buildRatesMap
    rw [buildRatesMap_lookup_general d observations []]
    cases hf : observations.reverse.find? (fun o => o.date == d) with
    | some o => simp
    | none => simp [mapGet?]
  · show multiGet? (buildMultiRatesMap observations) d c = _
    unfold buildMultiRatesMap
    rw [buildMultiRatesMap_lookup_general d c observations []]
    cases hf : observations.reverse.find?
        (fun o => o.date == d && o.currency == c) with
    | some o => simp
    | none => simp [multiGet?, mapGet?]
